import Mathlib

/-!
Verification of the profile-management component (`src/nix/profile.cc`):
manifest (de)serialization, element matchers, remove/upgrade/install
orchestration and the profile builder.  The C++ code is shallowly embedded:
`nlohmann::json` values become the inductive `Json`, `std::set<std::string>`
(`PathSet`) becomes a sorted, duplicate-free list built by ordered insertion,
and external collaborators (flake-reference parsing, the store, the regex
engine, the resolver) become explicit parameters or spec-modelled functions.
-/

deriving instance DecidableEq for Except

namespace Profile

/-- Lexicographic comparison of character lists by code point.  UTF-8 byte
order coincides with code-point order, so this is exactly the
`std::less<std::string>` ordering that `std::set<std::string>` uses. -/
def charListLt : List Char → List Char → Bool
  | _, [] => false
  | [], _ :: _ => true
  | c :: cs, d :: ds =>
    if c.toNat < d.toNat then true
    else if d.toNat < c.toNat then false
    else charListLt cs ds

/-- `std::less<std::string>`: strict lexicographic order on strings. -/
def strLt (a b : String) : Bool := charListLt a.data b.data

/-- JSON values, modelling the subset of `nlohmann::json` the manifest code
uses.  A number is the stored `number_integer_t`/`number_unsigned_t` value,
kept as an unbounded `Int` (floating-point-stored numbers are outside this
subset; only integer-stored versions are modelled). -/
inductive Json where
  | null
  | bool (b : Bool)
  | num (n : Int)
  | str (s : String)
  | arr (elems : List Json)
  | obj (fields : List (String × Json))

/-- Errors raised while loading a manifest: the explicit unsupported-version
`Error` thrown by the constructor, and the type errors `nlohmann::json`
throws on a failed conversion or on indexing a non-object. -/
inductive LoadError where
  | unsupportedVersion (v : Int)
  | typeError
deriving Repr, DecidableEq

/-- Member lookup on a JSON object (`find`): `none` when the value is not an
object or lacks the key. -/
def Json.find (j : Json) (key : String) : Option Json :=
  match j with
  | .obj fields => List.lookup key fields
  | _ => none

/-- `static_cast<int>` applied to the stored JSON integer, as
`nlohmann::json::get<int>` does: reduce modulo 2^32 into the signed 32-bit
range. -/
def toInt32 (n : Int) : Int := (n + 2147483648) % 4294967296 - 2147483648

/-- `j.value(key, default)` with an `int` default: the default when the key
is absent; when the member is an (integer-stored) number, its value after
the unchecked `static_cast` to the 32-bit `int` that `get<int>` performs;
a type error when the member is not a number or `j` is not an object. -/
def Json.valueInt (j : Json) (key : String) (dflt : Int) : Except LoadError Int :=
  match j with
  | .obj fields =>
    match List.lookup key fields with
    | none => .ok dflt
    | some (.num n) => .ok (toInt32 n)
    | some _ => .error .typeError
  | _ => .error .typeError

/-- `j.value(key, default)` with a string default, analogous to
`Json.valueInt`. -/
def Json.valueStr (j : Json) (key : String) (dflt : String) : Except LoadError String :=
  match j with
  | .obj fields =>
    match List.lookup key fields with
    | none => .ok dflt
    | some (.str s) => .ok s
    | some _ => .error .typeError
  | _ => .error .typeError

/-- Non-const `operator[]` with a string key, as used by the manifest loader:
on `null` or an object lacking the key it yields `null` (the C++ inserts a
`null` member and returns it); on any other non-object it throws a type
error. -/
def Json.atKey (j : Json) (key : String) : Except LoadError Json :=
  match j with
  | .null => .ok .null
  | .obj fields => .ok ((List.lookup key fields).getD .null)
  | _ => .error .typeError

/-- Range-for over a JSON value: arrays iterate their elements, objects their
member values, `null` nothing, and a primitive iterates itself once. -/
def Json.elems (j : Json) : List Json :=
  match j with
  | .null => []
  | .arr xs => xs
  | .obj fields => fields.map (fun f => f.2)
  | x => [x]

/-- Implicit conversion of a JSON value to `std::string`. -/
def Json.asString (j : Json) : Except LoadError String :=
  match j with
  | .str s => .ok s
  | _ => .error .typeError

/-- Implicit conversion of a JSON value to `bool` (as in
`element.active = e["active"]`). -/
def Json.asBool (j : Json) : Except LoadError Bool :=
  match j with
  | .bool b => .ok b
  | _ => .error .typeError

/-- Modelled from the spec: flake references (`FlakeRef`, defined outside
this component) are opaque reference strings; parsing one from a string and
printing it back (`to_string`) round-trip, so both are the identity here. -/
abbrev FlakeRef : Type := String

/-- Provenance of an element that originated from a resolvable flake
reference (`ProfileElementSource`). -/
structure ProfileElementSource where
  originalRef : FlakeRef
  resolvedRef : FlakeRef
  attrPath : String
deriving Repr, DecidableEq

/-- A `PathSet` (`std::set<std::string>`): kept as the sorted,
duplicate-free list of its members, which is the set's iteration order. -/
abbrev PathSet : Type := List String

/-- `std::set` insertion: place the new string at its sorted position,
keeping the list duplicate-free. -/
def PathSet.insert (ps : PathSet) (p : String) : PathSet :=
  match ps with
  | [] => [p]
  | q :: rest =>
    if strLt p q then p :: q :: rest
    else if p = q then q :: rest
    else q :: PathSet.insert rest p

/-- One installed unit (`ProfileElement`): its store paths, optional
provenance, and the active flag (defaulting to `true`). -/
structure ProfileElement where
  storePaths : PathSet
  source : Option ProfileElementSource := none
  active : Bool := true
deriving Repr, DecidableEq

/-- A profile manifest: the ordered list of its elements. -/
structure ProfileManifest where
  elements : List ProfileElement := []
deriving Repr, DecidableEq

/-- The `for (auto & p : e["storePaths"]) element.storePaths.insert(...)`
loop: convert each entry to a string and insert it into the set. -/
def collectStorePaths : List Json → PathSet → Except LoadError PathSet
  | [], acc => .ok acc
  | p :: rest, acc => do
    let s ← p.asString
    collectStorePaths rest (PathSet.insert acc s)

/-- Parse one member of the `"elements"` array, exactly as the
`ProfileManifest(const Path &)` constructor body does: collect
`e["storePaths"]` into a path set, convert `e["active"]` to a boolean
(failing when absent), and record provenance only when `e.value("uri","")`
is a non-empty string. -/
def loadElement (e : Json) : Except LoadError ProfileElement := do
  let spj ← e.atKey "storePaths"
  let storePaths ← collectStorePaths spj.elems []
  let activeJ ← e.atKey "active"
  let active ← activeJ.asBool
  let uri ← e.valueStr "uri" ""
  if uri = "" then
    pure { storePaths := storePaths, source := none, active := active }
  else do
    let origJ ← e.atKey "originalUri"
    let orig ← origJ.asString
    let attrJ ← e.atKey "attrPath"
    let attrPath ← attrJ.asString
    pure { storePaths := storePaths,
           source := some { originalRef := orig, resolvedRef := uri, attrPath := attrPath },
           active := active }

/-- The `for (auto & e : json["elements"])` loop: parse each element in
order, appending it to the element vector. -/
def loadElements : List Json → Except LoadError (List ProfileElement)
  | [] => .ok []
  | e :: rest => do
    let el ← loadElement e
    let els ← loadElements rest
    pure (el :: els)

/-- `ProfileManifest(const Path & profile)`: `none` stands for a profile
directory with no `manifest.json` (an empty manifest results); otherwise the
parsed JSON is checked for `version == 1` and its `"elements"` are parsed in
order. -/
def ProfileManifest.load (file : Option Json) : Except LoadError ProfileManifest :=
  match file with
  | none => .ok { elements := [] }
  | some json => do
    let version ← json.valueInt "version" 0
    if version = 1 then do
      let elemsJ ← json.atKey "elements"
      let elements ← loadElements elemsJ.elems
      pure { elements := elements }
    else
      .error (.unsupportedVersion version)

/-- Serialization of one element inside `ProfileManifest::toJSON`: the
store paths in set-iteration order, the active flag, and the three
provenance members only when a source is present. -/
def ProfileElement.toJSON (e : ProfileElement) : Json :=
  .obj ([("storePaths", .arr (e.storePaths.map Json.str)),
         ("active", .bool e.active)] ++
    (match e.source with
     | some s => [("originalUri", .str s.originalRef),
                  ("uri", .str s.resolvedRef),
                  ("attrPath", .str s.attrPath)]
     | none => []))

/-- `ProfileManifest::toJSON`: version tag `1` plus the serialized element
array.  (`nlohmann::json::dump` and `parse` preserve the JSON tree, so
serialization is modelled at the tree level.) -/
def ProfileManifest.toJSON (m : ProfileManifest) : Json :=
  .obj [("version", .num 1),
        ("elements", .arr (m.elements.map ProfileElement.toJSON))]

/-- A selector matcher (`MixProfileElementMatchers::Matcher`,
`std::variant<size_t, Path, std::regex>`): a position, an exact store path,
or a regular-expression pattern (kept as its source text; the engine is the
external `std::regex`). -/
inductive Matcher where
  | pos (n : Nat)
  | path (p : String)
  | regex (pattern : String)
deriving Repr, DecidableEq

/-- Modelled from the spec: `string2Int` into `size_t` (defined outside this
component) parses a selector as a non-negative integer: a non-empty string
of decimal digits, read in base 10. -/
def string2Nat (s : String) : Option Nat :=
  if s.data ≠ [] ∧ s.data.all (fun c => c.toNat ≥ 48 ∧ c.toNat ≤ 57) then
    some (s.data.foldl (fun n c => n * 10 + (c.toNat - 48)) 0)
  else none

/-- `MixProfileElementMatchers::getMatchers`: classify each selector, in
order — integer first, then store path (per the store's `isStorePath`
predicate, an external collaborator passed as a function), else a regex
pattern (compiled with `extended | icase` by the external engine). -/
def getMatchers (isStorePath : String → Bool) (selectors : List String) : List Matcher :=
  selectors.map (fun s =>
    match string2Nat s with
    | some n => .pos n
    | none => if isStorePath s then .path s else .regex s)

/-- `MixProfileElementMatchers::matches`: true as soon as one matcher
matches — a position matcher by index equality, a path matcher by membership
in the element's store paths, a pattern matcher when the element has
provenance and the external full-string regex match (`std::regex_match`,
passed as `regexMatch pattern input`) accepts its attribute path. -/
def matchesElement (regexMatch : String → String → Bool) (element : ProfileElement)
    (pos : Nat) (matchers : List Matcher) : Bool :=
  matchers.any (fun m =>
    match m with
    | .pos n => n == pos
    | .path p => (element.storePaths : List String).contains p
    | .regex pattern =>
      match element.source with
      | some src => regexMatch pattern src.attrPath
      | none => false)

/-- The loop body of `CmdProfileRemove::run`: keep the elements whose
pre-removal index does not match, in order. -/
def removeLoop (regexMatch : String → String → Bool) (matchers : List Matcher) :
    Nat → List ProfileElement → List ProfileElement
  | _, [] => []
  | i, e :: rest =>
    if matchesElement regexMatch e i matchers then removeLoop regexMatch matchers (i + 1) rest
    else e :: removeLoop regexMatch matchers (i + 1) rest

/-- Observable outcome of `nix profile remove`: the printed removed/kept
counts and the new manifest handed to `build` and then to `updateProfile`
(the publish step). -/
structure RemoveOutcome where
  removedCount : Nat
  keptCount : Nat
  builtAndPublished : ProfileManifest
deriving Repr, DecidableEq

/-- `CmdProfileRemove::run`: filter by the matchers at pre-removal indices,
print the counts, and unconditionally build and publish the filtered
manifest. -/
def profileRemove (regexMatch : String → String → Bool)
    (oldManifest : ProfileManifest) (matchers : List Matcher) : RemoveOutcome :=
  let newManifest : ProfileManifest :=
    { elements := removeLoop regexMatch matchers 0 oldManifest.elements }
  { removedCount := oldManifest.elements.length - newManifest.elements.length,
    keptCount := newManifest.elements.length,
    builtAndPublished := newManifest }

/-- `pkgs` as accumulated by `ProfileManifest::build`: for every element, for
every store path (in set order), if the element is active append
`(path, true, 5)` — the priority is the fixed constant 5. -/
def ProfileManifest.buildPkgs (m : ProfileManifest) : List (String × Bool × Nat) :=
  m.elements.foldl
    (fun acc e =>
      (e.storePaths : List String).foldl
        (fun acc2 p => if e.active then acc2 ++ [(p, true, 5)] else acc2) acc)
    []

/-- `info.references` as accumulated by `ProfileManifest::build`: every
store path of every element, active or not, inserted into a path set. -/
def ProfileManifest.buildRefs (m : ProfileManifest) : PathSet :=
  m.elements.foldl
    (fun acc e => (e.storePaths : List String).foldl PathSet.insert acc)
    []

/-- Modelled from the spec: the external pieces `ProfileManifest::build`
delegates to — `buildProfile` (the symlink-farm merge, a function of the
package list and the store contents it captures), `nlohmann::json::dump`,
`dumpPath` (NAR serialization of a directory's contents; the directory's own
name is not part of the dump), `hashString(htSHA256, ...)` and
`Store::makeFixedOutputPath(true, hash, "profile", refs)`.  They are opaque
deterministic functions of these arguments only. -/
structure BuildEnv where
  tree : List (String × Bool × Nat) → List (String × String)
  dump : Json → String
  narSerialize : List (String × String) → String
  hashString : String → String
  makeFixedOutputPath : String → String → PathSet → String

/-- Result of `ProfileManifest::build`: the package list given to
`buildProfile`, the reference set registered with the store, and the
content-addressed path of the artifact. -/
structure BuildResult where
  pkgs : List (String × Bool × Nat)
  references : PathSet
  narHash : String
  artifactPath : String

/-- `ProfileManifest::build`: accumulate `pkgs` and `references`, merge the
active packages into a temporary tree, write the serialized manifest into
it, NAR-dump and hash the tree, and register it under its fixed-output path.
`tempDir` is the per-run temporary directory name (`createTempDir()`); the
NAR dump covers only the tree's contents, so it does not enter the
result. -/
def ProfileManifest.build (env : BuildEnv) (m : ProfileManifest) (tempDir : String) :
    BuildResult :=
  let _ := tempDir
  let pkgs := m.buildPkgs
  let refs := m.buildRefs
  let treeFiles := env.tree pkgs ++ [("manifest.json", env.dump m.toJSON)]
  let nar := env.narSerialize treeFiles
  let narHash := env.hashString nar
  { pkgs := pkgs,
    references := refs,
    narHash := narHash,
    artifactPath := env.makeFixedOutputPath narHash "profile" refs }

/-- A derivation as returned by the resolver: its derivation path and its
output path. -/
structure Drv where
  drvPath : String
  outPath : String
deriving Repr, DecidableEq

/-- Modelled from the spec: the result of
`InstallableFlake::toDerivation()` — the resolved attribute path, the pinned
resolved reference, and the derivation. -/
structure ResolveResult where
  attrPath : String
  resolvedRef : FlakeRef
  drv : Drv
deriving Repr, DecidableEq

/-- `makeDrvPathWithOutputs(drvPath, "out")`: the build request naming the
`out` output of a derivation. -/
def mkBuildRequest (drvPath : String) : String := drvPath ++ "!out"

/-- The body of the `CmdProfileUpgrade::run` loop for the element at index
`i`: when the element has provenance, its original reference is mutable
(`isImmutable`, external flake predicate, passed as a function) and it
matches, re-resolve (`resolve originalRef attrPath`, the external resolver);
keep the element untouched when the resolved reference is unchanged,
otherwise replace its store paths and source in place and request a build.
Returns the new element, the requested build (if any), and whether the
resolver was invoked. -/
def upgradeElement (resolve : FlakeRef → String → ResolveResult)
    (isImmutable : FlakeRef → Bool) (regexMatch : String → String → Bool)
    (matchers : List Matcher) (i : Nat) (e : ProfileElement) :
    ProfileElement × Option String × Bool :=
  match e.source with
  | some src =>
    if ¬ isImmutable src.originalRef ∧ matchesElement regexMatch e i matchers = true then
      let r := resolve src.originalRef src.attrPath
      if src.resolvedRef = r.resolvedRef then (e, none, true)
      else
        ({ storePaths := [r.drv.outPath],
           source := some { originalRef := src.originalRef,
                            resolvedRef := r.resolvedRef,
                            attrPath := r.attrPath },
           active := e.active },
         some (mkBuildRequest r.drv.drvPath), true)
    else (e, none, false)
  | none => (e, none, false)

/-- The `CmdProfileUpgrade::run` loop over the element vector, carrying the
index, the accumulated `pathsToBuild` set and the indices at which the
resolver was invoked. -/
def upgradeLoop (resolve : FlakeRef → String → ResolveResult)
    (isImmutable : FlakeRef → Bool) (regexMatch : String → String → Bool)
    (matchers : List Matcher) :
    Nat → List ProfileElement → List ProfileElement × PathSet × List Nat
  | _, [] => ([], [], [])
  | i, e :: rest =>
    let r1 := upgradeElement resolve isImmutable regexMatch matchers i e
    let r2 := upgradeLoop resolve isImmutable regexMatch matchers (i + 1) rest
    (r1.1 :: r2.1,
     (match r1.2.1 with
      | some b => PathSet.insert r2.2.1 b
      | none => r2.2.1),
     if r1.2.2 then i :: r2.2.2 else r2.2.2)

/-- Observable outcome of `nix profile upgrade`: the manifest that is built
and published, the batched build requests, and the positions whose elements
were re-resolved. -/
structure UpgradeOutcome where
  newManifest : ProfileManifest
  pathsToBuild : PathSet
  resolvedPositions : List Nat
deriving Repr, DecidableEq

/-- `CmdProfileUpgrade::run` on a loaded manifest and computed matchers. -/
def profileUpgrade (resolve : FlakeRef → String → ResolveResult)
    (isImmutable : FlakeRef → Bool) (regexMatch : String → String → Bool)
    (manifest : ProfileManifest) (matchers : List Matcher) : UpgradeOutcome :=
  let r := upgradeLoop resolve isImmutable regexMatch matchers 0 manifest.elements
  { newManifest := { elements := r.1 },
    pathsToBuild := r.2.1,
    resolvedPositions := r.2.2 }

/-- An argument of `nix profile install`: either an `InstallableFlake`
(carrying its flake reference and, spec-modelled, the result its
`toDerivation()` resolution returns) or some other kind of installable,
identified by its `what()` description. -/
inductive Installable where
  | flake (flakeRef : FlakeRef) (res : ResolveResult)
  | other (what : String)
deriving Repr, DecidableEq

/-- The error message `CmdProfileInstall::run` throws on a non-flake
installable. -/
def installErrorMsg (what : String) : String :=
  "\x27nix profile install\x27 does not support argument \x27" ++ what ++ "\x27"

/-- The `CmdProfileInstall::run` loop: append, per flake installable, a new
element (output path, provenance, `active` left at its default `true`) and a
build request; throw on the first non-flake installable, which aborts the
run before any build or publish. -/
def installLoop :
    List Installable → List ProfileElement × PathSet →
      Except String (List ProfileElement × PathSet)
  | [], acc => .ok acc
  | .flake flakeRef res :: rest, acc =>
    installLoop rest
      (acc.1 ++ [{ storePaths := [res.drv.outPath],
                   source := some { originalRef := flakeRef,
                                    resolvedRef := res.resolvedRef,
                                    attrPath := res.attrPath } }],
       PathSet.insert acc.2 (mkBuildRequest res.drv.drvPath))
  | .other what :: _, _ => .error (installErrorMsg what)

/-- Observable outcome of a successful `nix profile install`: the manifest
that is built and published and the batched build requests. -/
structure InstallOutcome where
  newManifest : ProfileManifest
  pathsToBuild : PathSet
deriving Repr, DecidableEq

/-- `CmdProfileInstall::run` on a loaded manifest: on success the new
elements are appended to the manifest, all builds are batched, and the
manifest is built and published; an error escapes before `buildPaths` and
`updateProfile` run. -/
def profileInstall (manifest : ProfileManifest) (installables : List Installable) :
    Except String InstallOutcome := do
  let (es, builds) ← installLoop installables (manifest.elements, [])
  pure { newManifest := { elements := es }, pathsToBuild := builds }

/-- All-pairs strict `strLt` ordering of a path list: the shape a
`std::set`'s iteration always produces. -/
def pairwiseLt : List String → Bool
  | [] => true
  | a :: rest => rest.all (fun b => strLt a b) && pairwiseLt rest

/-- An element the running system can produce: its store paths are listed in
strict set order (they live in a `PathSet`), and its recorded resolved
reference, if any, is not the empty string (it is printed by
`FlakeRef::to_string`, which never yields an empty reference). -/
def ProfileElement.wf (e : ProfileElement) : Bool :=
  pairwiseLt e.storePaths &&
    (match e.source with
     | some s => s.resolvedRef != ""
     | none => true)

/-- A manifest every element of which is well-formed. -/
def ProfileManifest.wf (m : ProfileManifest) : Bool :=
  m.elements.all ProfileElement.wf

/-! Ordering facts about the `std::set` model. -/

theorem charListLt_irrefl (xs : List Char) : charListLt xs xs = false := by
  induction xs with
  | nil => rfl
  | cons c cs ih => simp [charListLt, ih]

theorem charListLt_asymm (xs ys : List Char) (h : charListLt xs ys = true) :
    charListLt ys xs = false := by
  induction xs generalizing ys with
  | nil =>
    cases ys with
    | nil => simp [charListLt]
    | cons d ds => simp [charListLt]
  | cons c cs ih =>
    cases ys with
    | nil => simp [charListLt] at h
    | cons d ds =>
      by_cases h1 : c.toNat < d.toNat
      · have h2 : ¬ d.toNat < c.toNat := by omega
        simp [charListLt, h1, h2]
      · by_cases h2 : d.toNat < c.toNat
        · simp [charListLt, h1, h2] at h
        · simp [charListLt, h1, h2] at h ⊢
          exact ih ds h

theorem strLt_irrefl (s : String) : strLt s s = false := charListLt_irrefl _

theorem strLt_asymm {a b : String} (h : strLt a b = true) : strLt b a = false :=
  charListLt_asymm _ _ h

theorem strLt_ne {a b : String} (h : strLt a b = true) : a ≠ b := by
  intro e
  subst e
  rw [strLt_irrefl] at h
  exact Bool.noConfusion h

theorem mem_pathSet_insert {p q : String} {ps : PathSet} :
    p ∈ PathSet.insert ps q ↔ p = q ∨ p ∈ ps := by
  induction ps with
  | nil => simp [PathSet.insert]
  | cons r rest ih =>
    by_cases h1 : strLt q r
    · simp [PathSet.insert, h1]
    · by_cases h2 : q = r
      · subst h2
        simp [PathSet.insert, h1]
      · simp [PathSet.insert, h1, h2, ih]
        tauto

theorem pathSet_insert_append {ps : PathSet} {p : String}
    (h : ∀ q ∈ ps, strLt q p = true) : PathSet.insert ps p = ps ++ [p] := by
  induction ps with
  | nil => rfl
  | cons r rest ih =>
    have hr : strLt r p = true := h r (by simp)
    have h1 : strLt p r = false := strLt_asymm hr
    have h2 : p ≠ r := fun e => (strLt_ne hr) e.symm
    simp [PathSet.insert, h1, h2]
    exact ih (fun q hq => h q (by simp [hq]))

theorem foldl_insert_of_pairwise :
    ∀ (l : List String) (acc : PathSet),
      pairwiseLt l = true → (∀ q ∈ acc, ∀ x ∈ l, strLt q x = true) →
      l.foldl PathSet.insert acc = acc ++ l := by
  intro l
  induction l with
  | nil => intro acc _ _; simp
  | cons x xs ih =>
    intro acc hp hacc
    rw [pairwiseLt] at hp
    rw [Bool.and_eq_true] at hp
    have h1 : PathSet.insert acc x = acc ++ [x] :=
      pathSet_insert_append (fun q hq => hacc q hq x (by simp))
    rw [List.foldl_cons, h1, ih (acc ++ [x]) hp.2 ?hall]
    · simp
    case hall =>
      intro q hq y hy
      rcases List.mem_append.1 hq with h | h
      · exact hacc q h y (by simp [hy])
      · have hx : q = x := by simpa using h
        subst hx
        exact List.all_eq_true.1 hp.1 y hy

theorem foldl_insert_self {l : List String} (h : pairwiseLt l = true) :
    l.foldl PathSet.insert [] = l := by
  simpa using foldl_insert_of_pairwise l [] h (by simp)

/-! Round-trip machinery: loading what `toJSON` produced. -/

theorem except_bind_ok {ε α β : Type} (a : α) (f : α → Except ε β) :
    (Except.ok a : Except ε α) >>= f = f a := rfl

theorem except_bind_error {ε α β : Type} (e : ε) (f : α → Except ε β) :
    (Except.error e : Except ε α) >>= f = Except.error e := rfl

theorem except_pure {ε α : Type} (a : α) :
    (pure a : Except ε α) = Except.ok a := rfl

theorem collectStorePaths_map_str :
    ∀ (paths : List String) (acc : PathSet),
      collectStorePaths (paths.map Json.str) acc
        = Except.ok (paths.foldl PathSet.insert acc) := by
  intro paths
  induction paths with
  | nil => intro acc; rfl
  | cons p ps ih =>
    intro acc
    simp [collectStorePaths, Json.asString, ih, List.foldl_cons, except_bind_ok]

theorem loadElement_toJSON {e : ProfileElement} (h : e.wf = true) :
    loadElement e.toJSON = .ok e := by
  obtain ⟨paths, src, act⟩ := e
  rw [ProfileElement.wf, Bool.and_eq_true] at h
  cases src with
  | none =>
    simp only [ProfileElement.toJSON]
    simp only [loadElement, Json.atKey, Json.elems, List.lookup, Json.asBool,
      Json.valueStr, List.nil_append, List.append_nil]
    simp [collectStorePaths_map_str, foldl_insert_self h.1, except_bind_ok, except_pure]
  | some s =>
    obtain ⟨orig, res, attr⟩ := s
    have hs : res ≠ "" := by
      have h2 := h.2
      simp at h2
      exact h2
    simp only [ProfileElement.toJSON]
    simp only [loadElement, Json.atKey, Json.elems, List.lookup, Json.asBool,
      Json.valueStr, Json.asString, List.cons_append, List.nil_append]
    simp [collectStorePaths_map_str, foldl_insert_self h.1, hs, except_bind_ok, except_pure]

theorem loadElements_map_toJSON :
    ∀ (es : List ProfileElement), (∀ e ∈ es, ProfileElement.wf e = true) →
      loadElements (es.map ProfileElement.toJSON) = .ok es := by
  intro es
  induction es with
  | nil => intro _; rfl
  | cons e rest ih =>
    intro h
    have he : loadElement e.toJSON = .ok e := loadElement_toJSON (h e (by simp))
    simp [loadElements, he, ih (fun x hx => h x (by simp [hx])), except_bind_ok, except_pure]

/-! The claims. -/

/-- C1.  Round-trip: for any manifest the system's operations can produce
(well-formed: store paths in strict set order, recorded resolved references
non-empty), deserializing the serialized form yields the same manifest —
same elements in the same order, with equal `storePaths`, `active` and
`source` fields. -/
theorem load_serialize_roundtrip (m : ProfileManifest) (h : m.wf = true) :
    ProfileManifest.load (some m.toJSON) = .ok m := by
  obtain ⟨es⟩ := m
  rw [ProfileManifest.wf] at h
  simp only [ProfileManifest.toJSON]
  simp only [ProfileManifest.load, Json.valueInt, Json.atKey, Json.elems, List.lookup]
  simp [loadElements_map_toJSON es (fun e he => List.all_eq_true.1 h e he),
    except_bind_ok, except_pure, toInt32]

/-- C1 witness: a concrete two-element manifest (multiple sorted store
paths, provenance on one element, an inactive element) round-trips. -/
theorem load_serialize_roundtrip_witness :
    ProfileManifest.load (some (ProfileManifest.toJSON
      { elements := [
          { storePaths := ["/nix/store/aaa-hello", "/nix/store/bbb-hello-man"],
            source := some { originalRef := "flake:nixpkgs",
                             resolvedRef := "github:NixOS/nixpkgs/abc123",
                             attrPath := "packages.x86_64-linux.hello" },
            active := true },
          { storePaths := ["/nix/store/ccc-vim"], source := none, active := false } ] }))
      = .ok
      { elements := [
          { storePaths := ["/nix/store/aaa-hello", "/nix/store/bbb-hello-man"],
            source := some { originalRef := "flake:nixpkgs",
                             resolvedRef := "github:NixOS/nixpkgs/abc123",
                             attrPath := "packages.x86_64-linux.hello" },
            active := true },
          { storePaths := ["/nix/store/ccc-vim"], source := none, active := false } ] } :=
  load_serialize_roundtrip _ (by decide)

/-- C2 (amended).  Loading a profile with no manifest file yields the empty
manifest, and loading any manifest file whose version *as the code reads
it* — the `"version"` member put through `get<int>`'s `static_cast` to a
32-bit `int`, `0` when absent — is not `1` fails with the
unsupported-version error, whatever the rest of the file contains.  (The
claim as originally stated, over the stored version itself, is refuted by
the counterexample below: a stored version of 2^32 + 1 is read as 1 and
loads.) -/
theorem load_missing_file_and_version_gate :
    ProfileManifest.load none = .ok { elements := [] } ∧
    ∀ (j : Json) (v : Int), j.valueInt "version" 0 = .ok v → v ≠ 1 →
      ProfileManifest.load (some j) = .error (.unsupportedVersion v) := by
  refine ⟨rfl, ?_⟩
  intro j v hv hne
  simp [ProfileManifest.load, hv, except_bind_ok, hne]

/-- C2 witness: a version-2 file with otherwise plausible content is
rejected with the unsupported-version error, and a file with no version
field is rejected with stored version 0. -/
theorem load_missing_file_and_version_gate_witness :
    ProfileManifest.load (some (.obj [("version", .num 2),
        ("elements", .arr [.obj [("storePaths", .arr [.str "/nix/store/x"]),
                                 ("active", .bool true)]])]))
      = .error (.unsupportedVersion 2) ∧
    ProfileManifest.load (some (.obj [("elements", .arr [])]))
      = .error (.unsupportedVersion 0) :=
  ⟨load_missing_file_and_version_gate.2 _ 2 rfl (by decide),
   load_missing_file_and_version_gate.2 _ 0 rfl (by decide)⟩

/-- C2 counterexample to the original claim: a file storing version
2^32 + 1 with an empty element array stores a version different from 1, yet
the `static_cast` in `get<int>` wraps 2^32 + 1 to 1, the gate passes, and
the file loads as the empty manifest instead of failing with an
unsupported-version error. -/
theorem load_version_gate_counterexample :
    Json.find (.obj [("version", .num 4294967297), ("elements", .arr [])])
        "version"
      = some (.num 4294967297) ∧
    (4294967297 : Int) ≠ 1 ∧
    ProfileManifest.load
        (some (.obj [("version", .num 4294967297), ("elements", .arr [])]))
      = .ok { elements := [] } := by
  refine ⟨rfl, by decide, ?_⟩
  rfl

theorem loadElement_no_active {fs : List (String × Json)}
    (h : List.lookup "active" fs = none) :
    ∀ x, loadElement (.obj fs) ≠ .ok x := by
  intro x hx
  simp only [loadElement, Json.atKey, except_bind_ok] at hx
  cases hcs : collectStorePaths ((List.lookup "storePaths" fs).getD .null).elems [] with
  | error err =>
    rw [hcs, except_bind_error] at hx
    exact Except.noConfusion hx
  | ok sp =>
    rw [hcs, except_bind_ok, h] at hx
    simp only [Option.getD, Json.asBool, except_bind_error] at hx
    exact Except.noConfusion hx

theorem loadElements_error_of_mem {e : Json}
    (hf : ∀ x, loadElement e ≠ .ok x) :
    ∀ l : List Json, e ∈ l → ∃ err, loadElements l = .error err := by
  intro l
  induction l with
  | nil => intro he; cases he
  | cons a rest ih =>
    intro he
    cases ha : loadElement a with
    | error err => exact ⟨err, by simp [loadElements, ha, except_bind_error]⟩
    | ok x =>
      rcases List.mem_cons.1 he with h | h
      · exact absurd (show loadElement e = .ok x by rw [h]; exact ha) (hf x)
      · obtain ⟨err, herr⟩ := ih h
        exact ⟨err, by simp [loadElements, ha, herr, except_bind_ok, except_bind_error]⟩

/-- C10.  The loader's tolerance for missing members stops at provenance:
a version-1 manifest file one of whose elements is an object with no
`"active"` member makes the whole load fail with an error (the flag is
never defaulted), while an element carrying only `"storePaths"` and
`"active"` — all three provenance members absent — parses successfully
with `source` absent. -/
theorem load_requires_active_field :
    (∀ (j : Json) (elemsJ : List Json) (fs : List (String × Json)),
      j.valueInt "version" 0 = .ok 1 →
      j.atKey "elements" = .ok (.arr elemsJ) →
      (Json.obj fs) ∈ elemsJ →
      List.lookup "active" fs = none →
      ∃ err, ProfileManifest.load (some j) = .error err) ∧
    (∀ (paths : List String) (active : Bool),
      loadElement (.obj [("storePaths", .arr (paths.map Json.str)),
                         ("active", .bool active)])
        = .ok { storePaths := paths.foldl PathSet.insert [],
                source := none, active := active }) := by
  constructor
  · intro j elemsJ fs hv hk hmem hact
    obtain ⟨err, herr⟩ :=
      loadElements_error_of_mem (loadElement_no_active hact) elemsJ hmem
    refine ⟨err, ?_⟩
    simp [ProfileManifest.load, hv, hk, Json.elems, herr,
      except_bind_ok, except_bind_error]
  · intro paths active
    simp only [loadElement, Json.atKey, List.lookup, Json.elems, Json.asBool,
      Json.valueStr]
    simp [collectStorePaths_map_str, except_bind_ok, except_pure]

/-- C10 witness: a concrete version-1 file whose single element lacks
`"active"` fails to load, and the same element with `"active"` and no
provenance members parses with `source = none`. -/
theorem load_requires_active_field_witness :
    (∃ err, ProfileManifest.load (some (.obj [("version", .num 1),
        ("elements", .arr [.obj [("storePaths", .arr [.str "/nix/store/x"])]])]))
      = .error err) ∧
    loadElement (.obj [("storePaths", .arr (["/nix/store/x"].map Json.str)),
                       ("active", .bool true)])
      = .ok { storePaths := ["/nix/store/x"].foldl PathSet.insert [],
              source := none, active := true } :=
  ⟨load_requires_active_field.1 _ _ [("storePaths", .arr [.str "/nix/store/x"])]
      rfl rfl (List.mem_singleton.2 rfl) rfl,
   load_requires_active_field.2 ["/nix/store/x"] true⟩

/-- C3.  `getMatchers` classifies every selector into exactly one matcher
kind, in the fixed priority order: a non-negative integer becomes a
positional matcher; otherwise, a string the store recognizes becomes a path
matcher; otherwise the selector becomes a regex pattern matcher.  A selector
that parses as an integer is never a path or pattern matcher, and one the
store recognizes is never a pattern matcher. -/
theorem getMatchers_classification (isStorePath : String → Bool)
    (selectors : List String) :
    (getMatchers isStorePath selectors).length = selectors.length ∧
    ∀ (i : Nat) (s : String), selectors[i]? = some s →
      ((∀ n, string2Nat s = some n →
          (getMatchers isStorePath selectors)[i]? = some (Matcher.pos n)) ∧
       (string2Nat s = none → isStorePath s = true →
          (getMatchers isStorePath selectors)[i]? = some (Matcher.path s)) ∧
       (string2Nat s = none → isStorePath s = false →
          (getMatchers isStorePath selectors)[i]? = some (Matcher.regex s))) := by
  refine ⟨by simp [getMatchers], ?_⟩
  intro i s hi
  refine ⟨?_, ?_, ?_⟩
  · intro n hn
    simp [getMatchers, List.getElem?_map, hi, hn]
  · intro hn hsp
    simp [getMatchers, List.getElem?_map, hi, hn, hsp]
  · intro hn hsp
    simp [getMatchers, List.getElem?_map, hi, hn, hsp]

/-- C3 witness: with a store recognizing exactly `/nix/store/aaa`, the
selectors `12`, `/nix/store/aaa` and `hello` classify as positional, path
and pattern matchers respectively. -/
theorem getMatchers_classification_witness :
    (getMatchers (fun s => s == "/nix/store/aaa")
        ["12", "/nix/store/aaa", "hello"])[0]? = some (.pos 12) ∧
    (getMatchers (fun s => s == "/nix/store/aaa")
        ["12", "/nix/store/aaa", "hello"])[1]? = some (.path "/nix/store/aaa") ∧
    (getMatchers (fun s => s == "/nix/store/aaa")
        ["12", "/nix/store/aaa", "hello"])[2]? = some (.regex "hello") :=
  ⟨((getMatchers_classification _ _).2 0 "12" rfl).1 12 (by decide),
   ((getMatchers_classification _ _).2 1 "/nix/store/aaa" rfl).2.1
      (by decide) (by decide),
   ((getMatchers_classification _ _).2 2 "hello" rfl).2.2
      (by decide) (by decide)⟩

/-- C4.  `matches` is a logical OR over the matcher list: it is true exactly
when some matcher matches — a positional matcher by index equality, a path
matcher by exact membership in the element's store paths, a pattern matcher
only when the element has provenance and the (full-string) regex match
accepts its attribute path; with an empty matcher list it is false. -/
theorem matchesElement_or_semantics (regexMatch : String → String → Bool)
    (e : ProfileElement) (pos : Nat) (ms : List Matcher) :
    (matchesElement regexMatch e pos ms = true ↔
      ∃ mt ∈ ms,
        (∃ n, mt = .pos n ∧ n = pos) ∨
        (∃ p, mt = .path p ∧ p ∈ e.storePaths) ∨
        (∃ pat src, mt = .regex pat ∧ e.source = some src ∧
          regexMatch pat src.attrPath = true)) ∧
    matchesElement regexMatch e pos [] = false := by
  refine ⟨?_, rfl⟩
  rw [matchesElement, List.any_eq_true]
  constructor
  · rintro ⟨mt, hmt, hsat⟩
    refine ⟨mt, hmt, ?_⟩
    cases mt with
    | pos n =>
      left
      exact ⟨n, rfl, by simpa using hsat⟩
    | path p =>
      right; left
      refine ⟨p, rfl, ?_⟩
      exact List.elem_iff.1 (by simpa using hsat)
    | regex pat =>
      right; right
      cases hsrc : e.source with
      | none => rw [hsrc] at hsat; simp at hsat
      | some src =>
        rw [hsrc] at hsat
        exact ⟨pat, src, rfl, rfl, hsat⟩
  · rintro ⟨mt, hmt, hsat⟩
    refine ⟨mt, hmt, ?_⟩
    rcases hsat with ⟨n, rfl, rfl⟩ | ⟨p, rfl, hp⟩ | ⟨pat, src, rfl, hsrc, hre⟩
    · simp
    · simpa using List.elem_iff.2 hp
    · rw [hsrc]
      exact hre

/-- C4 witness: with one positional matcher, an element at the matching
position is selected and the regex clause of the characterization holds on a
provenance-free element. -/
theorem matchesElement_or_semantics_witness :
    matchesElement (fun _ _ => false)
      { storePaths := ["/nix/store/p"], source := none, active := true } 2
      [.pos 2] = true :=
  (matchesElement_or_semantics (fun _ _ => false)
      { storePaths := ["/nix/store/p"], source := none, active := true } 2
      [.pos 2]).1.2
    ⟨.pos 2, by simp, Or.inl ⟨2, rfl, rfl⟩⟩

theorem removeLoop_enumFrom (rm : String → String → Bool) (ms : List Matcher) :
    ∀ (es : List ProfileElement) (k : Nat),
      removeLoop rm ms k es =
        ((List.enumFrom k es).filter
          (fun p => ! matchesElement rm p.2 p.1 ms)).map Prod.snd := by
  intro es
  induction es with
  | nil => intro k; rfl
  | cons e rest ih =>
    intro k
    by_cases h : matchesElement rm e k ms = true
    · simp [removeLoop, h, List.enumFrom, List.filter_cons, ih]
    · simp [removeLoop, h, List.enumFrom, List.filter_cons, ih]

/-- C5.  `remove` keeps exactly the elements whose pre-removal index and
content match no selector (order preserved, removal targeting pre-removal
indices), reports removed = old size minus new size and kept = new size,
and always hands the filtered manifest to build and publish. -/
theorem profileRemove_spec (rm : String → String → Bool)
    (old : ProfileManifest) (ms : List Matcher) :
    (profileRemove rm old ms).builtAndPublished.elements =
      (old.elements.enum.filter
          (fun p => ! matchesElement rm p.2 p.1 ms)).map Prod.snd ∧
    (profileRemove rm old ms).removedCount =
      old.elements.length -
        (profileRemove rm old ms).builtAndPublished.elements.length ∧
    (profileRemove rm old ms).keptCount =
      (profileRemove rm old ms).builtAndPublished.elements.length := by
  refine ⟨?_, rfl, rfl⟩
  simp [profileRemove, removeLoop_enumFrom, List.enum]

theorem mem_foldl_pathSet_insert :
    ∀ (l : List String) (acc : PathSet) (p : String),
      p ∈ l.foldl PathSet.insert acc ↔ p ∈ acc ∨ p ∈ l := by
  intro l
  induction l with
  | nil => intro acc p; simp
  | cons x xs ih =>
    intro acc p
    rw [List.foldl_cons, ih, mem_pathSet_insert]
    simp [List.mem_cons]
    tauto

theorem mem_buildRefs (m : ProfileManifest) (p : String) :
    p ∈ m.buildRefs ↔ ∃ e ∈ m.elements, p ∈ e.storePaths := by
  rw [ProfileManifest.buildRefs]
  suffices h : ∀ (es : List ProfileElement) (acc : PathSet),
      p ∈ es.foldl (fun acc e => (e.storePaths : List String).foldl PathSet.insert acc) acc ↔
        p ∈ acc ∨ ∃ e ∈ es, p ∈ e.storePaths by
    simpa using h m.elements []
  intro es
  induction es with
  | nil => intro acc; simp
  | cons e rest ih =>
    intro acc
    rw [List.foldl_cons, ih, mem_foldl_pathSet_insert]
    simp
    tauto

theorem mem_foldl_pkgs_inner (b : Bool) :
    ∀ (paths : List String) (acc : List (String × Bool × Nat))
      (x : String × Bool × Nat),
      x ∈ paths.foldl
          (fun acc2 p => if b then acc2 ++ [(p, true, 5)] else acc2) acc ↔
        x ∈ acc ∨ (b = true ∧ ∃ p ∈ paths, x = (p, true, 5)) := by
  intro paths
  induction paths with
  | nil => intro acc x; simp
  | cons q qs ih =>
    intro acc x
    rw [List.foldl_cons, ih]
    cases b with
    | false => simp
    | true =>
      simp [List.mem_append, List.mem_cons]
      tauto

theorem mem_buildPkgs (m : ProfileManifest) (x : String × Bool × Nat) :
    x ∈ m.buildPkgs ↔
      ∃ e ∈ m.elements, e.active = true ∧ ∃ p ∈ e.storePaths, x = (p, true, 5) := by
  rw [ProfileManifest.buildPkgs]
  suffices h : ∀ (es : List ProfileElement) (acc : List (String × Bool × Nat)),
      x ∈ es.foldl
          (fun acc e => (e.storePaths : List String).foldl
            (fun acc2 p => if e.active then acc2 ++ [(p, true, 5)] else acc2) acc)
          acc ↔
        x ∈ acc ∨ ∃ e ∈ es, e.active = true ∧ ∃ p ∈ e.storePaths, x = (p, true, 5) by
    simpa using h m.elements []
  intro es
  induction es with
  | nil => intro acc; simp
  | cons e rest ih =>
    intro acc
    rw [List.foldl_cons, ih, mem_foldl_pkgs_inner e.active]
    simp only [List.mem_cons, or_assoc]
    constructor
    · rintro (h | ⟨ha, p, hp, hx⟩ | ⟨e2, he2, h2⟩)
      · exact Or.inl h
      · exact Or.inr ⟨e, Or.inl rfl, ha, p, hp, hx⟩
      · exact Or.inr ⟨e2, Or.inr he2, h2⟩
    · rintro (h | ⟨e2, (rfl | he2), h2⟩)
      · exact Or.inl h
      · exact Or.inr (Or.inl ⟨h2.1, h2.2⟩)
      · exact Or.inr (Or.inr ⟨e2, he2, h2⟩)

/-- C6.  In `build`, the packages handed to the environment-construction
step are exactly the store paths of active elements, each with the fixed
constant priority 5, while the artifact's reference set is the union of the
store paths of all elements, active or not. -/
theorem build_active_pkgs_and_references (env : BuildEnv) (m : ProfileManifest)
    (tempDir : String) :
    (∀ x : String × Bool × Nat,
      x ∈ (ProfileManifest.build env m tempDir).pkgs ↔
        ∃ e ∈ m.elements, e.active = true ∧ ∃ p ∈ e.storePaths, x = (p, true, 5)) ∧
    (∀ p : String,
      p ∈ (ProfileManifest.build env m tempDir).references ↔
        ∃ e ∈ m.elements, p ∈ e.storePaths) := by
  constructor
  · intro x
    exact mem_buildPkgs m x
  · intro p
    exact mem_buildRefs m p

/-- C7.  `build` is deterministic in the manifest and the (fixed) external
environment: two runs on manifests with the same elements, in different
temporary directories, produce the same NAR hash and the same artifact
path. -/
theorem build_deterministic (env : BuildEnv) (m1 m2 : ProfileManifest)
    (t1 t2 : String) (h : m1.elements = m2.elements) :
    (ProfileManifest.build env m1 t1).narHash =
        (ProfileManifest.build env m2 t2).narHash ∧
    (ProfileManifest.build env m1 t1).artifactPath =
        (ProfileManifest.build env m2 t2).artifactPath := by
  obtain ⟨es1⟩ := m1
  obtain ⟨es2⟩ := m2
  cases h
  exact ⟨rfl, rfl⟩

/-- C7 witness: a concrete manifest built twice in distinct temporary
directories under a concrete external environment yields identical hashes
and artifact paths. -/
theorem build_deterministic_witness :
    (ProfileManifest.build
        { tree := fun _ => [("bin/hello", "link")],
          dump := fun _ => "json", narSerialize := fun t => toString t.length,
          hashString := fun s => s ++ "#h",
          makeFixedOutputPath := fun h n _ => n ++ ":" ++ h }
        { elements := [{ storePaths := ["/nix/store/aaa"] }] } "/tmp/run1").narHash =
      (ProfileManifest.build
        { tree := fun _ => [("bin/hello", "link")],
          dump := fun _ => "json", narSerialize := fun t => toString t.length,
          hashString := fun s => s ++ "#h",
          makeFixedOutputPath := fun h n _ => n ++ ":" ++ h }
        { elements := [{ storePaths := ["/nix/store/aaa"] }] } "/tmp/run2").narHash ∧
    (ProfileManifest.build
        { tree := fun _ => [("bin/hello", "link")],
          dump := fun _ => "json", narSerialize := fun t => toString t.length,
          hashString := fun s => s ++ "#h",
          makeFixedOutputPath := fun h n _ => n ++ ":" ++ h }
        { elements := [{ storePaths := ["/nix/store/aaa"] }] } "/tmp/run1").artifactPath =
      (ProfileManifest.build
        { tree := fun _ => [("bin/hello", "link")],
          dump := fun _ => "json", narSerialize := fun t => toString t.length,
          hashString := fun s => s ++ "#h",
          makeFixedOutputPath := fun h n _ => n ++ ":" ++ h }
        { elements := [{ storePaths := ["/nix/store/aaa"] }] } "/tmp/run2").artifactPath :=
  build_deterministic _ _ _ "/tmp/run1" "/tmp/run2" rfl

theorem exists_getElem_cons {α : Type} (a : α) (l : List α) (P : Nat → α → Prop) :
    (∃ j e, (a :: l)[j]? = some e ∧ P j e) ↔
      (P 0 a ∨ ∃ j e, l[j]? = some e ∧ P (j + 1) e) := by
  constructor
  · rintro ⟨j, e, hj, hP⟩
    cases j with
    | zero =>
      left
      have : a = e := by simpa using hj
      exact this ▸ hP
    | succ j =>
      right
      exact ⟨j, e, by simpa using hj, hP⟩
  · rintro (hP | ⟨j, e, hj, hP⟩)
    · exact ⟨0, a, by simp, hP⟩
    · exact ⟨j + 1, e, by simpa using hj, hP⟩

theorem upgradeLoop_elements (resolve : FlakeRef → String → ResolveResult)
    (isImmutable : FlakeRef → Bool) (rm : String → String → Bool)
    (ms : List Matcher) :
    ∀ (es : List ProfileElement) (k j : Nat),
      (upgradeLoop resolve isImmutable rm ms k es).1[j]? =
        (es[j]?).map (fun e => (upgradeElement resolve isImmutable rm ms (k + j) e).1) := by
  intro es
  induction es with
  | nil => intro k j; simp [upgradeLoop]
  | cons e rest ih =>
    intro k j
    cases j with
    | zero => simp [upgradeLoop]
    | succ j =>
      have harith : k + (j + 1) = (k + 1) + j := by omega
      simp [upgradeLoop, ih (k + 1) j, harith]

theorem upgradeLoop_builds (resolve : FlakeRef → String → ResolveResult)
    (isImmutable : FlakeRef → Bool) (rm : String → String → Bool)
    (ms : List Matcher) :
    ∀ (es : List ProfileElement) (k : Nat) (b : String),
      b ∈ (upgradeLoop resolve isImmutable rm ms k es).2.1 ↔
        ∃ j e, es[j]? = some e ∧
          (upgradeElement resolve isImmutable rm ms (k + j) e).2.1 = some b := by
  intro es
  induction es with
  | nil => intro k b; simp [upgradeLoop]
  | cons e rest ih =>
    intro k b
    rw [exists_getElem_cons e rest
      (fun j x => (upgradeElement resolve isImmutable rm ms (k + j) x).2.1 = some b)]
    cases hreq : (upgradeElement resolve isImmutable rm ms k e).2.1 with
    | none =>
      simp only [upgradeLoop, hreq]
      rw [ih (k + 1)]
      simp only [Nat.add_succ, Nat.succ_add, Nat.add_zero, hreq]
      constructor
      · intro h
        exact Or.inr h
      · rintro (h | h)
        · exact Option.noConfusion h
        · exact h
    | some b2 =>
      simp only [upgradeLoop, hreq]
      rw [mem_pathSet_insert, ih (k + 1)]
      simp only [Nat.add_succ, Nat.succ_add, Nat.add_zero, hreq, Option.some.injEq]
      constructor
      · rintro (rfl | h)
        · exact Or.inl rfl
        · exact Or.inr h
      · rintro (rfl | h)
        · exact Or.inl rfl
        · exact Or.inr h

theorem upgradeLoop_resolved (resolve : FlakeRef → String → ResolveResult)
    (isImmutable : FlakeRef → Bool) (rm : String → String → Bool)
    (ms : List Matcher) :
    ∀ (es : List ProfileElement) (k : Nat) (i : Nat),
      i ∈ (upgradeLoop resolve isImmutable rm ms k es).2.2 ↔
        ∃ j e, es[j]? = some e ∧ i = k + j ∧
          (upgradeElement resolve isImmutable rm ms (k + j) e).2.2 = true := by
  intro es
  induction es with
  | nil => intro k i; simp [upgradeLoop]
  | cons e rest ih =>
    intro k i
    rw [exists_getElem_cons e rest
      (fun j x => i = k + j ∧
        (upgradeElement resolve isImmutable rm ms (k + j) x).2.2 = true)]
    cases hres : (upgradeElement resolve isImmutable rm ms k e).2.2 with
    | false =>
      simp only [upgradeLoop, hres, Bool.false_eq_true, if_false]
      rw [ih (k + 1)]
      simp only [Nat.add_succ, Nat.succ_add, Nat.add_zero, hres]
      constructor
      · intro h
        exact Or.inr h
      · rintro (⟨_, h⟩ | h)
        · exact Bool.noConfusion h
        · exact h
    | true =>
      simp only [upgradeLoop, hres, if_true, List.mem_cons]
      rw [ih (k + 1)]
      simp only [Nat.add_succ, Nat.succ_add, Nat.add_zero, hres, eq_self_iff_true,
        and_true]

theorem upgradeLoop_length (resolve : FlakeRef → String → ResolveResult)
    (isImmutable : FlakeRef → Bool) (rm : String → String → Bool)
    (ms : List Matcher) :
    ∀ (es : List ProfileElement) (k : Nat),
      (upgradeLoop resolve isImmutable rm ms k es).1.length = es.length := by
  intro es
  induction es with
  | nil => intro k; rfl
  | cons e rest ih => intro k; simp [upgradeLoop, ih (k + 1)]

theorem upgradeElement_no_source (resolve : FlakeRef → String → ResolveResult)
    (isImmutable : FlakeRef → Bool) (rm : String → String → Bool)
    (ms : List Matcher) (i : Nat) (e : ProfileElement) (h : e.source = none) :
    upgradeElement resolve isImmutable rm ms i e = (e, none, false) := by
  simp [upgradeElement, h]

theorem upgradeElement_not_eligible (resolve : FlakeRef → String → ResolveResult)
    (isImmutable : FlakeRef → Bool) (rm : String → String → Bool)
    (ms : List Matcher) (i : Nat) (e : ProfileElement)
    (src : ProfileElementSource) (h : e.source = some src)
    (hc : isImmutable src.originalRef = true ∨ matchesElement rm e i ms = false) :
    upgradeElement resolve isImmutable rm ms i e = (e, none, false) := by
  have hcond : ¬ (¬ isImmutable src.originalRef = true ∧
      matchesElement rm e i ms = true) := by
    rcases hc with hc | hc
    · intro h2
      exact h2.1 hc
    · intro h2
      rw [hc] at h2
      exact Bool.noConfusion h2.2
  simp only [upgradeElement, h]
  rw [if_neg hcond]

theorem upgradeElement_unchanged (resolve : FlakeRef → String → ResolveResult)
    (isImmutable : FlakeRef → Bool) (rm : String → String → Bool)
    (ms : List Matcher) (i : Nat) (e : ProfileElement)
    (src : ProfileElementSource) (h : e.source = some src)
    (himm : isImmutable src.originalRef = false)
    (hm : matchesElement rm e i ms = true)
    (heq : (resolve src.originalRef src.attrPath).resolvedRef = src.resolvedRef) :
    upgradeElement resolve isImmutable rm ms i e = (e, none, true) := by
  simp only [upgradeElement, h]
  rw [if_pos ⟨by simp [himm], hm⟩, if_pos heq.symm]

theorem upgradeElement_changed (resolve : FlakeRef → String → ResolveResult)
    (isImmutable : FlakeRef → Bool) (rm : String → String → Bool)
    (ms : List Matcher) (i : Nat) (e : ProfileElement)
    (src : ProfileElementSource) (h : e.source = some src)
    (himm : isImmutable src.originalRef = false)
    (hm : matchesElement rm e i ms = true)
    (hne : (resolve src.originalRef src.attrPath).resolvedRef ≠ src.resolvedRef) :
    upgradeElement resolve isImmutable rm ms i e =
      ({ storePaths := [(resolve src.originalRef src.attrPath).drv.outPath],
         source := some { originalRef := src.originalRef,
                          resolvedRef := (resolve src.originalRef src.attrPath).resolvedRef,
                          attrPath := (resolve src.originalRef src.attrPath).attrPath },
         active := e.active },
       some (mkBuildRequest (resolve src.originalRef src.attrPath).drv.drvPath),
       true) := by
  simp only [upgradeElement, h]
  rw [if_pos ⟨by simp [himm], hm⟩, if_neg (fun h2 => hne h2.symm)]

theorem upgradeElement_resolved_iff (resolve : FlakeRef → String → ResolveResult)
    (isImmutable : FlakeRef → Bool) (rm : String → String → Bool)
    (ms : List Matcher) (i : Nat) (e : ProfileElement) :
    (upgradeElement resolve isImmutable rm ms i e).2.2 = true ↔
      ∃ src, e.source = some src ∧ isImmutable src.originalRef = false ∧
        matchesElement rm e i ms = true := by
  cases hsrc : e.source with
  | none => simp [upgradeElement_no_source resolve isImmutable rm ms i e hsrc, hsrc]
  | some src =>
    constructor
    · intro h
      by_cases himm : isImmutable src.originalRef = true
      · rw [upgradeElement_not_eligible resolve isImmutable rm ms i e src hsrc
          (Or.inl himm)] at h
        exact Bool.noConfusion h
      · have himm2 : isImmutable src.originalRef = false :=
          Bool.not_eq_true _ ▸ (by simpa using himm)
        by_cases hm : matchesElement rm e i ms = true
        · exact ⟨src, rfl, himm2, hm⟩
        · rw [upgradeElement_not_eligible resolve isImmutable rm ms i e src hsrc
            (Or.inr (by simpa using hm))] at h
          exact Bool.noConfusion h
    · rintro ⟨src2, hsrc2, himm, hm⟩
      have hss : src2 = src := (Option.some.inj hsrc2).symm
      subst hss
      by_cases heq : (resolve src2.originalRef src2.attrPath).resolvedRef =
          src2.resolvedRef
      · rw [upgradeElement_unchanged resolve isImmutable rm ms i e src2 hsrc himm hm heq]
      · rw [upgradeElement_changed resolve isImmutable rm ms i e src2 hsrc himm hm heq]

theorem upgradeElement_buildReq_iff (resolve : FlakeRef → String → ResolveResult)
    (isImmutable : FlakeRef → Bool) (rm : String → String → Bool)
    (ms : List Matcher) (i : Nat) (e : ProfileElement) (b : String) :
    (upgradeElement resolve isImmutable rm ms i e).2.1 = some b ↔
      ∃ src, e.source = some src ∧ isImmutable src.originalRef = false ∧
        matchesElement rm e i ms = true ∧
        (resolve src.originalRef src.attrPath).resolvedRef ≠ src.resolvedRef ∧
        b = mkBuildRequest (resolve src.originalRef src.attrPath).drv.drvPath := by
  cases hsrc : e.source with
  | none => simp [upgradeElement_no_source resolve isImmutable rm ms i e hsrc, hsrc]
  | some src =>
    constructor
    · intro h
      by_cases himm : isImmutable src.originalRef = true
      · rw [upgradeElement_not_eligible resolve isImmutable rm ms i e src hsrc
          (Or.inl himm)] at h
        exact Option.noConfusion h
      · have himm2 : isImmutable src.originalRef = false := by
          simpa using himm
        by_cases hm : matchesElement rm e i ms = true
        · by_cases heq : (resolve src.originalRef src.attrPath).resolvedRef =
              src.resolvedRef
          · rw [upgradeElement_unchanged resolve isImmutable rm ms i e src hsrc
              himm2 hm heq] at h
            exact Option.noConfusion h
          · rw [upgradeElement_changed resolve isImmutable rm ms i e src hsrc
              himm2 hm heq] at h
            exact ⟨src, rfl, himm2, hm, heq, (Option.some.inj h).symm⟩
        · rw [upgradeElement_not_eligible resolve isImmutable rm ms i e src hsrc
            (Or.inr (by simpa using hm))] at h
          exact Option.noConfusion h
    · rintro ⟨src2, hsrc2, himm, hm, hne, rfl⟩
      have hss : src2 = src := (Option.some.inj hsrc2).symm
      subst hss
      rw [upgradeElement_changed resolve isImmutable rm ms i e src2 hsrc himm hm hne]

/-- C8.  `upgrade` re-resolves an element exactly when it has provenance,
its original reference is mutable, and it matches at its pre-upgrade
position.  A re-resolved element whose fresh resolved reference equals the
recorded one is left completely unchanged and requests no build; otherwise
its store paths and source are replaced in place (the position and the
active flag are kept).  Elements without provenance, or with an immutable
original reference, are never modified, and the batched build requests are
exactly those of the changed elements. -/
theorem profileUpgrade_spec (resolve : FlakeRef → String → ResolveResult)
    (isImmutable : FlakeRef → Bool) (rm : String → String → Bool)
    (m : ProfileManifest) (ms : List Matcher) :
    (profileUpgrade resolve isImmutable rm m ms).newManifest.elements.length
        = m.elements.length ∧
    (∀ (i : Nat) (e : ProfileElement), m.elements[i]? = some e →
      ((i ∈ (profileUpgrade resolve isImmutable rm m ms).resolvedPositions ↔
          ∃ src, e.source = some src ∧ isImmutable src.originalRef = false ∧
            matchesElement rm e i ms = true) ∧
       (e.source = none →
          (profileUpgrade resolve isImmutable rm m ms).newManifest.elements[i]?
            = some e) ∧
       (∀ src, e.source = some src →
          isImmutable src.originalRef = true ∨ matchesElement rm e i ms = false →
          (profileUpgrade resolve isImmutable rm m ms).newManifest.elements[i]?
            = some e) ∧
       (∀ src, e.source = some src → isImmutable src.originalRef = false →
          matchesElement rm e i ms = true →
          (resolve src.originalRef src.attrPath).resolvedRef = src.resolvedRef →
          (profileUpgrade resolve isImmutable rm m ms).newManifest.elements[i]?
            = some e) ∧
       (∀ src, e.source = some src → isImmutable src.originalRef = false →
          matchesElement rm e i ms = true →
          (resolve src.originalRef src.attrPath).resolvedRef ≠ src.resolvedRef →
          (profileUpgrade resolve isImmutable rm m ms).newManifest.elements[i]?
            = some
              { storePaths := [(resolve src.originalRef src.attrPath).drv.outPath],
                source := some { originalRef := src.originalRef,
                                 resolvedRef :=
                                   (resolve src.originalRef src.attrPath).resolvedRef,
                                 attrPath :=
                                   (resolve src.originalRef src.attrPath).attrPath },
                active := e.active }))) ∧
    (∀ b : String,
      b ∈ (profileUpgrade resolve isImmutable rm m ms).pathsToBuild ↔
        ∃ (i : Nat) (e : ProfileElement) (src : ProfileElementSource),
          m.elements[i]? = some e ∧ e.source = some src ∧
          isImmutable src.originalRef = false ∧ matchesElement rm e i ms = true ∧
          (resolve src.originalRef src.attrPath).resolvedRef ≠ src.resolvedRef ∧
          b = mkBuildRequest (resolve src.originalRef src.attrPath).drv.drvPath) := by
  refine ⟨?_, ?_, ?_⟩
  · exact upgradeLoop_length resolve isImmutable rm ms m.elements 0
  · intro i e hi
    have helem : (profileUpgrade resolve isImmutable rm m ms).newManifest.elements[i]?
        = some ((upgradeElement resolve isImmutable rm ms i e).1) := by
      show (upgradeLoop resolve isImmutable rm ms 0 m.elements).1[i]? = _
      rw [upgradeLoop_elements resolve isImmutable rm ms m.elements 0 i, hi]
      simp
    refine ⟨?_, ?_, ?_, ?_, ?_⟩
    · show i ∈ (upgradeLoop resolve isImmutable rm ms 0 m.elements).2.2 ↔ _
      rw [upgradeLoop_resolved resolve isImmutable rm ms m.elements 0 i]
      simp only [Nat.zero_add]
      constructor
      · rintro ⟨j, e2, hj, rfl, hres⟩
        rw [hi] at hj
        have he2 : e2 = e := (Option.some.inj hj).symm
        subst he2
        exact (upgradeElement_resolved_iff resolve isImmutable rm ms _ _).1 hres
      · rintro ⟨src, hsrc, himm, hm⟩
        exact ⟨i, e, hi, rfl,
          (upgradeElement_resolved_iff resolve isImmutable rm ms i e).2
            ⟨src, hsrc, himm, hm⟩⟩
    · intro hsrc
      rw [helem, upgradeElement_no_source resolve isImmutable rm ms i e hsrc]
    · intro src hsrc hc
      rw [helem, upgradeElement_not_eligible resolve isImmutable rm ms i e src hsrc hc]
    · intro src hsrc himm hm heq
      rw [helem, upgradeElement_unchanged resolve isImmutable rm ms i e src hsrc
        himm hm heq]
    · intro src hsrc himm hm hne
      rw [helem, upgradeElement_changed resolve isImmutable rm ms i e src hsrc
        himm hm hne]
  · intro b
    show b ∈ (upgradeLoop resolve isImmutable rm ms 0 m.elements).2.1 ↔ _
    rw [upgradeLoop_builds resolve isImmutable rm ms m.elements 0 b]
    simp only [Nat.zero_add]
    constructor
    · rintro ⟨j, e, hj, hreq⟩
      obtain ⟨src, hsrc, himm, hm, hne, rfl⟩ :=
        (upgradeElement_buildReq_iff resolve isImmutable rm ms j e b).1 hreq
      exact ⟨j, e, src, hj, hsrc, himm, hm, hne, rfl⟩
    · rintro ⟨i, e, src, hi, hsrc, himm, hm, hne, rfl⟩
      exact ⟨i, e, hi,
        (upgradeElement_buildReq_iff resolve isImmutable rm ms i e _).2
          ⟨src, hsrc, himm, hm, hne, rfl⟩⟩

/-- C8 witness: one mutable, matching element whose fresh resolution
differs is replaced in place and requests a build; a `.*`-style matcher and
a mutable origin make it eligible. -/
theorem profileUpgrade_spec_witness :
    ((profileUpgrade
        (fun _ _ => { attrPath := "hello", resolvedRef := "nixpkgs/rev2",
                      drv := { drvPath := "/nix/store/d.drv",
                               outPath := "/nix/store/new" } })
        (fun _ => false) (fun _ _ => true)
        { elements := [
            { storePaths := ["/nix/store/old"],
              source := some { originalRef := "nixpkgs",
                               resolvedRef := "nixpkgs/rev1",
                               attrPath := "hello" },
              active := true } ] }
        [.regex ".*"]).newManifest.elements[0]?
      = some
        { storePaths := ["/nix/store/new"],
          source := some { originalRef := "nixpkgs", resolvedRef := "nixpkgs/rev2",
                           attrPath := "hello" },
          active := true }) :=
  (((profileUpgrade_spec
      (fun _ _ => { attrPath := "hello", resolvedRef := "nixpkgs/rev2",
                    drv := { drvPath := "/nix/store/d.drv",
                             outPath := "/nix/store/new" } })
      (fun _ => false) (fun _ _ => true)
      { elements := [
          { storePaths := ["/nix/store/old"],
            source := some { originalRef := "nixpkgs",
                             resolvedRef := "nixpkgs/rev1",
                             attrPath := "hello" },
            active := true } ] }
      [.regex ".*"]).2.1 0
      { storePaths := ["/nix/store/old"],
        source := some { originalRef := "nixpkgs", resolvedRef := "nixpkgs/rev1",
                         attrPath := "hello" },
        active := true } rfl).2.2.2.2
    { originalRef := "nixpkgs", resolvedRef := "nixpkgs/rev1", attrPath := "hello" }
    rfl rfl rfl (by decide))

theorem installLoop_error :
    ∀ (insts : List Installable) (acc : List ProfileElement × PathSet),
      (∃ w, Installable.other w ∈ insts) →
      ∃ w, Installable.other w ∈ insts ∧
        installLoop insts acc = .error (installErrorMsg w) := by
  intro insts
  induction insts with
  | nil =>
    rintro acc ⟨w, hw⟩
    cases hw
  | cons a rest ih =>
    rintro acc ⟨w, hw⟩
    cases a with
    | other w2 => exact ⟨w2, by simp, rfl⟩
    | flake ref res =>
      have hrest : ∃ w, Installable.other w ∈ rest := by
        rcases List.mem_cons.1 hw with h | h
        · exact absurd h (by simp)
        · exact ⟨w, h⟩
      obtain ⟨w2, hw2, herr⟩ := ih _ hrest
      exact ⟨w2, by simp [hw2], by rw [installLoop]; exact herr⟩

theorem installLoop_flakes :
    ∀ (fl : List (FlakeRef × ResolveResult)) (acc : List ProfileElement × PathSet),
      installLoop (fl.map (fun p => Installable.flake p.1 p.2)) acc =
        .ok (acc.1 ++ fl.map (fun p =>
               ({ storePaths := [p.2.drv.outPath],
                  source := some { originalRef := p.1,
                                   resolvedRef := p.2.resolvedRef,
                                   attrPath := p.2.attrPath },
                  active := true } : ProfileElement)),
             fl.foldl (fun ps p => PathSet.insert ps (mkBuildRequest p.2.drv.drvPath))
               acc.2) := by
  intro fl
  induction fl with
  | nil => intro acc; simp [installLoop]
  | cons p rest ih =>
    intro acc
    rw [List.map_cons, installLoop, ih]
    simp

theorem mem_foldl_insert_buildReq (fl : List (FlakeRef × ResolveResult)) :
    ∀ (acc : PathSet) (b : String),
      b ∈ fl.foldl (fun ps p => PathSet.insert ps (mkBuildRequest p.2.drv.drvPath)) acc ↔
        b ∈ acc ∨ ∃ p ∈ fl, b = mkBuildRequest p.2.drv.drvPath := by
  induction fl with
  | nil => intro acc b; simp
  | cons p rest ih =>
    intro acc b
    rw [List.foldl_cons, ih, mem_pathSet_insert]
    simp [List.mem_cons]
    tauto

/-- C9.  `install` rejects any installable that is not a resolvable flake
reference with an error naming the offending argument, and the error
escapes before any build or publish (the run produces no outcome); when all
installables are flake references, each appends a new element with
`active = true`, the resolved output path as its store paths, and the
provenance `(originalRef, resolvedRef, attrPath)`, with all build requests
batched. -/
theorem profileInstall_spec (m : ProfileManifest) (insts : List Installable) :
    ((∃ w, Installable.other w ∈ insts) →
       ∃ w, Installable.other w ∈ insts ∧
         profileInstall m insts = .error (installErrorMsg w)) ∧
    (∀ fl : List (FlakeRef × ResolveResult),
       insts = fl.map (fun p => Installable.flake p.1 p.2) →
       ∃ out, profileInstall m insts = .ok out ∧
         out.newManifest.elements =
           m.elements ++ fl.map (fun p =>
             ({ storePaths := [p.2.drv.outPath],
                source := some { originalRef := p.1,
                                 resolvedRef := p.2.resolvedRef,
                                 attrPath := p.2.attrPath },
                active := true } : ProfileElement)) ∧
         (∀ b, b ∈ out.pathsToBuild ↔
            ∃ p ∈ fl, b = mkBuildRequest p.2.drv.drvPath)) := by
  constructor
  · intro hex
    obtain ⟨w, hw, herr⟩ := installLoop_error insts (m.elements, []) hex
    exact ⟨w, hw, by simp [profileInstall, herr, except_bind_error]⟩
  · rintro fl rfl
    have hpi : profileInstall m (fl.map (fun p => Installable.flake p.1 p.2)) =
        .ok { newManifest := { elements := m.elements ++ fl.map (fun p =>
                 ({ storePaths := [p.2.drv.outPath],
                    source := some { originalRef := p.1,
                                     resolvedRef := p.2.resolvedRef,
                                     attrPath := p.2.attrPath },
                    active := true } : ProfileElement)) },
               pathsToBuild := fl.foldl
                 (fun ps p => PathSet.insert ps (mkBuildRequest p.2.drv.drvPath)) [] } := by
      simp only [profileInstall]
      rw [installLoop_flakes fl (m.elements, [])]
      rfl
    exact ⟨_, hpi, rfl, fun b => by simpa using mem_foldl_insert_buildReq fl [] b⟩

/-- C9 witness: a non-flake argument makes install fail with the message
naming it, and installing one flake reference into an empty profile yields
the expected single-element manifest. -/
theorem profileInstall_spec_witness :
    (∃ w, Installable.other w ∈
        ([.other "./result"] : List Installable) ∧
      profileInstall { elements := [] } [.other "./result"]
        = .error (installErrorMsg w)) ∧
    (∃ out, profileInstall { elements := [] }
        [Installable.flake "nixpkgs"
          { attrPath := "hello", resolvedRef := "nixpkgs/rev1",
            drv := { drvPath := "/nix/store/h.drv", outPath := "/nix/store/h" } }]
        = .ok out ∧
      out.newManifest.elements =
        ({ elements := [] } : ProfileManifest).elements ++
          [("nixpkgs",
            ({ attrPath := "hello", resolvedRef := "nixpkgs/rev1",
               drv := { drvPath := "/nix/store/h.drv", outPath := "/nix/store/h" } }
              : ResolveResult))].map (fun p =>
            ({ storePaths := [p.2.drv.outPath],
               source := some { originalRef := p.1,
                                resolvedRef := p.2.resolvedRef,
                                attrPath := p.2.attrPath },
               active := true } : ProfileElement)) ∧
      (∀ b, b ∈ out.pathsToBuild ↔
         ∃ p ∈ [("nixpkgs",
            ({ attrPath := "hello", resolvedRef := "nixpkgs/rev1",
               drv := { drvPath := "/nix/store/h.drv", outPath := "/nix/store/h" } }
              : ResolveResult))], b = mkBuildRequest p.2.drv.drvPath)) :=
  ⟨(profileInstall_spec { elements := [] } [.other "./result"]).1
      ⟨"./result", by simp⟩,
   (profileInstall_spec { elements := [] } _).2
      [("nixpkgs",
        { attrPath := "hello", resolvedRef := "nixpkgs/rev1",
          drv := { drvPath := "/nix/store/h.drv", outPath := "/nix/store/h" } })]
      rfl⟩

end Profile
